import Mathlib

/-
Shallow embedding of `scripts/release.py` (release automation for the toml
specification repository).

Modelling conventions:
* Text is represented as `List Char` (`String.data` of Lean string literals is
  used to write concrete values).  A physical ("raw") line of a file is the
  exact chunk Python's file iteration yields: the line's content followed by a
  terminating `'\n'`, except possibly for the file's final line, which may lack
  the terminator.  A file is the list of its raw lines plus its permission
  bits (`mode`).
* `change_line` is the line-rewriting loop of the Python function of the same
  name; `change_line_file` is the whole-file operation (rewrite the lines,
  keep the mode, as `shutil.copymode` + `shutil.move` do).
* The semver regular expression is embedded as an executable recognizer
  `semverFull` over whole strings, with `\d` given Python's str-pattern
  meaning (any Unicode decimal digit), and `rematch` adds the semantics of
  Python's `$` anchor (which also matches just before a string-final
  newline), so `rematch` models `SEMVER_REGEX.match(version)`.
* The git-facing parts (`check_repo_state`, `get_repositories`,
  `prepare_release`, `push_release`, `main`) are embedded as pure functions
  from the outputs of the consulted git queries to a success flag and a trace
  of externally visible effects (`Event`).
-/

/-! ## Raw lines and the text editor (`change_line`) -/

/-- A raw physical line as produced by Python's file iteration:
content plus a trailing newline, except possibly for the last line. -/
abbrev Line := List Char

/-- The newline character. -/
def nl : Char := '\n'

/-- The body of `change_line`'s loop for one input line `got`:
`if got_line != line + "\n": write(got_line)` else write each
`replacement + "\n"` for `replacement in to`. -/
def line_output (line : List Char) (repl : List Line) (got : Line) : List Line :=
  if got = line ++ [nl] then repl.map (fun r => r ++ [nl]) else [got]

/-- The full rewriting pass of `change_line` over the raw lines of the input
file, in order. -/
def change_line (lines : List Line) (line : List Char) (repl : List Line) : List Line :=
  match lines with
  | [] => []
  | got :: rest => line_output line repl got ++ change_line rest line repl

/-- A file as `change_line` sees it: its raw lines and its permission bits. -/
structure SrcFile where
  lines : List Line
  mode : Nat
  deriving DecidableEq

/-- The whole-file effect of `change_line(path, line=line, to=to)`: the raw
lines are rewritten and the permission bits are preserved
(`shutil.copymode(path, tmp_path)` before `shutil.move(tmp_path, path)`). -/
def change_line_file (f : SrcFile) (line : List Char) (repl : List Line) : SrcFile :=
  { lines := change_line f.lines line repl, mode := f.mode }

/-- The content of a raw line: the line with its terminating newline removed,
or the line itself if it is an unterminated final line. -/
def contentOf (l : Line) : List Char :=
  if l.getLast? = some nl then l.dropLast else l

/-- Whether a raw line is terminated by a newline character. -/
def terminated (l : Line) : Bool :=
  decide (l.getLast? = some nl)

/-- Spec-side description of the text editor (from the spec's words): every
newline-terminated line whose content equals the match value is replaced by
the replacement lines, each becoming its own (terminated) line; every other
raw line — including a final line that is not terminated by a newline — is
copied unchanged. -/
def specEdit (ls : List Line) (line : List Char) (repl : List Line) : List Line :=
  ls.flatMap (fun got =>
    if contentOf got = line ∧ terminated got = true
    then repl.map (fun r => r ++ [nl]) else [got])

/-! ## Execution-order model of `change_line` (temp file, copymode, unlink, move) -/

/-- The filesystem state `change_line` manipulates: the file at `path`
(`none` when the path does not exist) and the temporary file's content and
permission bits. -/
structure EditorState where
  target : Option SrcFile
  tmp : List Line
  tmpMode : Nat
  deriving DecidableEq

/-- The state right after `tempfile.mkstemp()`: the original file is in
place, the temporary file is empty with some default mode `m0`. -/
def initEditorState (f : SrcFile) (m0 : Nat) : EditorState :=
  { target := some f, tmp := [], tmpMode := m0 }

/-- One iteration of the writing loop: the outputs for the next input line
are appended to the temporary file. -/
def writeStep (line : List Char) (repl : List Line) (s : EditorState) (got : Line) :
    EditorState :=
  { s with tmp := s.tmp ++ line_output line repl got }

/-- The writing pass over a list of input lines. -/
def writePhase (line : List Char) (repl : List Line) (ls : List Line)
    (s : EditorState) : EditorState :=
  ls.foldl (writeStep line repl) s

/-- `shutil.copymode(path, tmp_path)`: the temporary file takes the permission
bits of the file at `path`. -/
def copymodeStep (s : EditorState) : EditorState :=
  { s with tmpMode := match s.target with | some g => g.mode | none => s.tmpMode }

/-- `path.unlink()`: the file at `path` is removed. -/
def unlinkStep (s : EditorState) : EditorState :=
  { s with target := none }

/-- `shutil.move(tmp_path, path)`: the temporary file becomes the file at
`path`. -/
def moveStep (s : EditorState) : EditorState :=
  { s with target := some { lines := s.tmp, mode := s.tmpMode } }

/-- The complete execution of `change_line` from the initial state: full
writing pass, then copymode, unlink and move. -/
def change_line_exec (f : SrcFile) (m0 : Nat) (line : List Char) (repl : List Line) :
    EditorState :=
  moveStep (unlinkStep (copymodeStep (writePhase line repl f.lines (initEditorState f m0))))

/-! ## The semver regular expression and `get_version` -/

/-- Split a character list at every occurrence of the character `c`
(like `str.split(c)` / the pieces between the dots of the regex). -/
def splitOnChar (c : Char) : List Char → List (List Char)
  | [] => [[]]
  | x :: xs =>
    let r := splitOnChar c xs
    if x = c then [] :: r
    else
      match r with
      | [] => [[x]]
      | y :: ys => (x :: y) :: ys

/-- The code-point ranges matched by Python's `\d` in a str pattern compiled
without `re.ASCII`, as `SEMVER_REGEX` is: every Unicode decimal digit, i.e.
the characters of Unicode category Nd (660 code points, Unicode 14.0 /
CPython 3.11). -/
def pyDigitRanges : List (Nat × Nat) :=
  [(0x30, 0x39), (0x660, 0x669), (0x6F0, 0x6F9), (0x7C0, 0x7C9),
   (0x966, 0x96F), (0x9E6, 0x9EF), (0xA66, 0xA6F), (0xAE6, 0xAEF),
   (0xB66, 0xB6F), (0xBE6, 0xBEF), (0xC66, 0xC6F), (0xCE6, 0xCEF),
   (0xD66, 0xD6F), (0xDE6, 0xDEF), (0xE50, 0xE59), (0xED0, 0xED9),
   (0xF20, 0xF29), (0x1040, 0x1049), (0x1090, 0x1099), (0x17E0, 0x17E9),
   (0x1810, 0x1819), (0x1946, 0x194F), (0x19D0, 0x19D9), (0x1A80, 0x1A89),
   (0x1A90, 0x1A99), (0x1B50, 0x1B59), (0x1BB0, 0x1BB9), (0x1C40, 0x1C49),
   (0x1C50, 0x1C59), (0xA620, 0xA629), (0xA8D0, 0xA8D9), (0xA900, 0xA909),
   (0xA9D0, 0xA9D9), (0xA9F0, 0xA9F9), (0xAA50, 0xAA59), (0xABF0, 0xABF9),
   (0xFF10, 0xFF19), (0x104A0, 0x104A9), (0x10D30, 0x10D39), (0x11066, 0x1106F),
   (0x110F0, 0x110F9), (0x11136, 0x1113F), (0x111D0, 0x111D9), (0x112F0, 0x112F9),
   (0x11450, 0x11459), (0x114D0, 0x114D9), (0x11650, 0x11659), (0x116C0, 0x116C9),
   (0x11730, 0x11739), (0x118E0, 0x118E9), (0x11950, 0x11959), (0x11C50, 0x11C59),
   (0x11D50, 0x11D59), (0x11DA0, 0x11DA9), (0x16A60, 0x16A69), (0x16AC0, 0x16AC9),
   (0x16B50, 0x16B59), (0x1D7CE, 0x1D7FF), (0x1E140, 0x1E149), (0x1E2F0, 0x1E2F9),
   (0x1E950, 0x1E959), (0x1FBF0, 0x1FBF9)]

/-- Python's `\d` character test: a Unicode decimal digit. -/
def isPyDigit (c : Char) : Bool :=
  pyDigitRanges.any (fun r => r.1 ≤ c.toNat && c.toNat ≤ r.2)

/-- A character of the explicit (and therefore ASCII-only) class
`[0-9a-zA-Z-]`. -/
def isIdentChar (c : Char) : Bool :=
  ('0' ≤ c && c ≤ '9') || ('a' ≤ c && c ≤ 'z') || ('A' ≤ c && c ≤ 'Z') || c = '-'

/-- A character of the explicit class `[a-zA-Z-]`. -/
def isAlphaHyphen (c : Char) : Bool :=
  ('a' ≤ c && c ≤ 'z') || ('A' ≤ c && c ≤ 'Z') || c = '-'

/-- The numeric-identifier alternative `0|[1-9]\d*` of the regex: the literal
`0` alone, or an ASCII nonzero digit followed by any Unicode decimal digits
(no leading zeros). -/
def isNum (s : List Char) : Bool :=
  match s with
  | [] => false
  | c :: cs =>
    if c = '0' then cs.isEmpty
    else ('1' ≤ c && c ≤ '9') && cs.all isPyDigit

/-- A prerelease identifier `0|[1-9]\d*|\d*[a-zA-Z-][0-9a-zA-Z-]*`: a
no-leading-zeros numeral, or a (possibly empty) run of Unicode decimal
digits (`\d*`), then one character of `[a-zA-Z-]`, then a (possibly empty)
run of the ASCII class `[0-9a-zA-Z-]`.  Since `[a-zA-Z-]` contains no
decimal digit, the `[a-zA-Z-]` character of any match of the third
alternative is necessarily the identifier's first non-digit character, so
the split after `dropWhile` below is the only possible one. -/
def isPreIdent (s : List Char) : Bool :=
  isNum s ||
    (match s.dropWhile isPyDigit with
     | [] => false
     | c :: rest => isAlphaHyphen c && rest.all isIdentChar)

/-- A build-metadata identifier `[0-9a-zA-Z-]+`. -/
def isBuildIdent (s : List Char) : Bool :=
  !s.isEmpty && s.all isIdentChar

/-- Full match of `SEMVER_REGEX`'s grammar against the whole string (the pure
semver grammar, with no newline tolerance): `none` if the string does not
match; `some b` if it matches, where `b` records whether the optional
build-metadata group is present.  Since none of the grammar's character
classes contain `+` (in particular no Unicode decimal digit is `+`), the
first `+` (if any) must begin the build-metadata part, and since the version
core contains no `-`, the first `-` before the `+` must begin the prerelease
part; likewise `.` is in no class, so the pieces between dots are exactly
the identifiers. -/
def semverFull (s : List Char) : Option Bool :=
  let base := s.takeWhile (fun c => c != '+')
  let plusRest := s.dropWhile (fun c => c != '+')
  let core := base.takeWhile (fun c => c != '-')
  let dashRest := base.dropWhile (fun c => c != '-')
  let coreParts := splitOnChar '.' core
  let coreOk := coreParts.length = 3 && coreParts.all isNum
  let preOk :=
    match dashRest with
    | [] => true
    | _ :: pre => (splitOnChar '.' pre).all isPreIdent
  if coreOk && preOk then
    match plusRest with
    | [] => some false
    | _ :: build =>
      if (splitOnChar '.' build).all isBuildIdent then some true else none
  else none

/-- `SEMVER_REGEX.match(version)` with Python's semantics for the `$` anchor:
without `re.MULTILINE`, `$` matches at the very end of the string and also
just before a newline that is the string's final character.  Returns `none`
on no match, and otherwise whether the `buildmetadata` group matched. -/
def rematch (s : List Char) : Option Bool :=
  match semverFull s with
  | some b => some b
  | none => if s.getLast? = some nl then semverFull s.dropLast else none

/-- `get_version()`: requires exactly two entries in `sys.argv`, matches
`argv[1]` against `SEMVER_REGEX`, asserts the match exists and has no
build-metadata group, and returns the argument unchanged.  `none` models the
fatal `AssertionError` / non-zero exit. -/
def get_version (argv : List (List Char)) : Option (List Char) :=
  if argv.length = 2 then
    match argv.get? 1 with
    | some version =>
      match rematch version with
      | some false => some version
      | some true => none
      | none => none
    | none => none
  else none

/-! ## Repository Inspector -/

/-- The two repositories the script operates on. -/
inductive Repo where
  | spec
  | website
  deriving DecidableEq, Repr

/-- An externally visible effect of the script.  `git add` + `git commit`
(the `git_commit` helper) is collapsed into a single `commit` event; `fetch`
is `git remote update upstream`, which only refreshes remote-tracking state
and mutates neither working tree, branches, tags nor remote repositories. -/
inductive Event where
  | fetch (repo : Repo)
  | tagCreate (repo : Repo) (name msg : List Char)
  | fileEdit (repo : Repo) (path : List Char)
  | fileCopy (src dst : Repo) (dstPath : List Char)
  | commit (repo : Repo) (msg : List Char)
  | push (repo : Repo) (remote : List Char) (refs : List (List Char))
  deriving DecidableEq, Repr

/-- Whether an event mutates a repository (its files, commits, tags, or a
remote).  `fetch` only updates the local remote-tracking cache. -/
def Event.isMutation : Event → Bool
  | .fetch _ => false
  | _ => true

/-- The outputs of the git queries `check_repo_state` consults, in the order
it runs them: the configured upstream URL, the current branch name, the
porcelain status, and the `rev-list` output observed after the fetch. -/
structure RepoEnv where
  upstreamUrl : List Char
  currentBranch : List Char
  statusPorcelain : List Char
  deviation : List Char
  deriving DecidableEq

/-- The upstream URL `check_repo_state` demands:
`git@github.com:toml-lang/{name}.git`. -/
def expectedUrl (name : List Char) : List Char :=
  "git@github.com:toml-lang/".data ++ name ++ ".git".data

/-- `check_repo_state(repo, name=name)`: the four assertions in source order,
aborting at the first failure (the surrounding `task` turns an
`AssertionError` into `sys.exit(1)`).  Returns whether all checks passed and
the trace of events; the fetch (`git remote update upstream`) happens only
once the first three checks have passed. -/
def check_repo_state (repo : Repo) (env : RepoEnv) (name : List Char) :
    Bool × List Event :=
  if env.upstreamUrl = expectedUrl name then
    if env.currentBranch = "main".data ∨ env.currentBranch = "master".data then
      if env.statusPorcelain = [] then
        (env.deviation.isEmpty, [Event.fetch repo])
      else (false, [])
    else (false, [])
  else (false, [])

/-- `get_repositories()`: checks the spec repository (`toml`) first, then the
website repository (`toml.io`); the second check never runs if the first
fails. -/
def get_repositories (specEnv webEnv : RepoEnv) : Bool × List Event :=
  let c1 := check_repo_state Repo.spec specEnv "toml".data
  if c1.1 then
    let c2 := check_repo_state Repo.website webEnv "toml.io".data
    (c2.1, c1.2 ++ c2.2)
  else (false, c1.2)

/-! ## The fourth check: `git rev-list` over branch histories

A branch history is modelled as the set (list) of commits reachable from its
tip. -/

/-- `git rev-list local..upstream` (two-dot range): the commits reachable
from `upstream` but not from `localBr`. -/
def revList_twoDot (localBr upstreamBr : List Nat) : List Nat :=
  upstreamBr.filter (fun c => decide (c ∉ localBr))

/-- The symmetric difference of two branch histories: commits reachable from
exactly one of the two tips (what `git rev-list local...upstream`, three-dot,
would list). -/
def symmetricDifference (localBr upstreamBr : List Nat) : List Nat :=
  localBr.filter (fun c => decide (c ∉ upstreamBr)) ++
    upstreamBr.filter (fun c => decide (c ∉ localBr))

/-- The fourth check of `check_repo_state` as run by the source
(`assert not deviation` over `git rev-list {branch}..upstream/{branch}`):
`true` means the check passes. -/
def deviation_check (localBr upstreamBr : List Nat) : Bool :=
  (revList_twoDot localBr upstreamBr).isEmpty

/-! ## Release Preparer and Release Publisher -/

/-- The `"## unreleased"` changelog marker. -/
def unreleased_heading : List Char := "## unreleased".data

/-- The dated release heading `f"## {version} / {date}"`. -/
def release_heading (version date : List Char) : List Char :=
  "## ".data ++ version ++ " / ".data ++ date

/-- The two changelog edits of `prepare_release`, applied to the changelog's
raw lines: first `## unreleased` becomes the dated release heading, then that
heading becomes the five lines `## unreleased`, blank, `Nothing.`, blank,
release heading. -/
def changelog_edits (ls : List Line) (version date : List Char) : List Line :=
  change_line
    (change_line ls unreleased_heading [release_heading version date])
    (release_heading version date)
    [unreleased_heading, [], "Nothing.".data, [], release_heading version date]

/-- The destination path of the published document,
`specs/en/v{version}.md` in the website repository. -/
def destination_md (version : List Char) : List Char :=
  "specs/en/v".data ++ version ++ ".md".data

/-- The event trace of `prepare_release(version, spec_repo, website_repo)`,
in source order.  `backup` is the timestamp-derived backup tag name (the
dated heading text written by the edits is file content, not part of the
event trace). -/
def prepare_release_trace (version backup : List Char) : List Event :=
  [Event.tagCreate Repo.spec backup "backup".data,
   Event.tagCreate Repo.website backup "backup".data,
   Event.fileEdit Repo.spec "CHANGELOG.md".data,
   Event.commit Repo.spec ("Release v".data ++ version),
   Event.tagCreate Repo.spec version ("Release v".data ++ version),
   Event.fileEdit Repo.spec "CHANGELOG.md".data,
   Event.commit Repo.spec "Bump for development".data,
   Event.fileCopy Repo.spec Repo.website (destination_md version),
   Event.fileEdit Repo.website (destination_md version),
   Event.fileEdit Repo.website (destination_md version),
   Event.commit Repo.website ("Release v".data ++ version)]

/-- The event trace of `push_release(version, spec_repo, website_repo)`:
`git push origin HEAD {version}` and `git push upstream HEAD {version}` in
the spec repository, then `git push origin HEAD` and
`git push upstream HEAD` in the website repository. -/
def push_release_trace (version : List Char) : List Event :=
  [Event.push Repo.spec "origin".data ["HEAD".data, version],
   Event.push Repo.spec "upstream".data ["HEAD".data, version],
   Event.push Repo.website "origin".data ["HEAD".data],
   Event.push Repo.website "upstream".data ["HEAD".data]]

/-- All individual (repository, remote, ref) push operations of a trace, in
order: one entry per ref pushed by each push command. -/
def pushedRefs (evs : List Event) : List (Repo × List Char × List Char) :=
  evs.flatMap (fun e =>
    match e with
    | .push r remote refs => refs.map (fun ref => (r, remote, ref))
    | _ => [])

/-- `main()`: validate the version, check both repositories, then (only if
everything passed) prepare and publish.  The returned flag is `false` when
the run aborts with a non-zero exit; the list is the trace of events that
have happened by the time the process ends.  (The interactive pause between
preparing and publishing is not an external effect and is not modelled.) -/
def main_trace (argv : List (List Char)) (specEnv webEnv : RepoEnv)
    (backup : List Char) : Bool × List Event :=
  match get_version argv with
  | none => (false, [])
  | some version =>
    let checks := get_repositories specEnv webEnv
    if checks.1 then
      (true, checks.2 ++ prepare_release_trace version backup ++
        push_release_trace version)
    else (false, checks.2)

/-! ## Helper lemmas about the text editor -/

theorem change_line_eq_flatMap (ls : List Line) (line : List Char) (repl : List Line) :
    change_line ls line repl = ls.flatMap (line_output line repl) := by
  induction ls with
  | nil => rfl
  | cons g rest ih => simp [change_line, List.flatMap_cons, ih]

theorem change_line_append (a b : List Line) (line : List Char) (repl : List Line) :
    change_line (a ++ b) line repl =
      change_line a line repl ++ change_line b line repl := by
  induction a with
  | nil => rfl
  | cons g rest ih => simp [change_line, ih, List.append_assoc]

theorem change_line_of_no_match (ls : List Line) (line : List Char) (repl : List Line)
    (h : ∀ l ∈ ls, l ≠ line ++ [nl]) : change_line ls line repl = ls := by
  induction ls with
  | nil => rfl
  | cons g rest ih =>
    have hg : g ≠ line ++ [nl] := h g (List.mem_cons_self g rest)
    simp only [change_line, line_output, if_neg hg]
    rw [ih fun l hl => h l (List.mem_cons_of_mem g hl)]
    rfl

/-- A raw line equals `line ++ "\n"` exactly when it is newline-terminated
and its content is `line`. -/
theorem raw_match_iff (got : Line) (line : List Char) :
    got = line ++ [nl] ↔ (contentOf got = line ∧ terminated got = true) := by
  constructor
  · rintro rfl
    have hlast : (line ++ [nl]).getLast? = some nl := List.getLast?_concat line
    refine ⟨?_, ?_⟩
    · simp [contentOf, hlast, List.dropLast_concat]
    · simp [terminated, hlast]
  · rintro ⟨hc, ht⟩
    have hlast : got.getLast? = some nl := by
      simpa [terminated] using ht
    obtain ⟨ys, rfl⟩ := List.getLast?_eq_some_iff.mp hlast
    have : contentOf (ys ++ [nl]) = ys := by
      simp [contentOf, List.getLast?_concat, List.dropLast_concat]
    rw [this] at hc
    rw [hc]

theorem writePhase_target (line : List Char) (repl : List Line) (ls : List Line)
    (s : EditorState) : (writePhase line repl ls s).target = s.target := by
  induction ls generalizing s with
  | nil => rfl
  | cons g rest ih => simpa [writePhase, List.foldl_cons, writeStep] using ih _

theorem writePhase_tmp (line : List Char) (repl : List Line) (ls : List Line)
    (s : EditorState) :
    (writePhase line repl ls s).tmp = s.tmp ++ change_line ls line repl := by
  induction ls generalizing s with
  | nil => simp [writePhase, change_line]
  | cons g rest ih =>
    simp [writePhase, List.foldl_cons, writeStep, change_line] at *
    rw [ih]
    simp [List.append_assoc]

theorem change_line_eq_specEdit (ls : List Line) (line : List Char) (repl : List Line) :
    change_line ls line repl = specEdit ls line repl := by
  rw [change_line_eq_flatMap]
  unfold specEdit
  induction ls with
  | nil => rfl
  | cons g rest ih =>
    simp only [List.flatMap_cons, ih]
    congr 1
    simp only [line_output]
    exact if_congr (raw_match_iff g line) rfl rfl

/-- C2: for every input file, literal match line and replacement list,
`change_line` produces the file in which every newline-terminated line whose
content equals the match value exactly is replaced by the replacement lines
in order, each becoming its own line, and every other line — including a
final line that is not terminated by a newline character — is copied
unchanged, in the original order, with the file permission bits preserved. -/
theorem change_line_correct (f : SrcFile) (line : List Char) (repl : List Line) :
    change_line_file f line repl =
      { lines := specEdit f.lines line repl, mode := f.mode } := by
  unfold change_line_file
  rw [change_line_eq_specEdit]

/-- C9: for every file and every literal match line whose content occurs
nowhere in the file, running `change_line` with any replacement list leaves
the file identical to the original (zero-match passthrough, not an error). -/
theorem change_line_zero_match (f : SrcFile) (line : List Char) (repl : List Line)
    (h : ∀ l ∈ f.lines, contentOf l ≠ line) :
    change_line_file f line repl = f := by
  unfold change_line_file
  have hnm : ∀ l ∈ f.lines, l ≠ line ++ [nl] := by
    intro l hl hcontra
    exact h l hl ((raw_match_iff l line).mp hcontra).1
  rw [change_line_of_no_match f.lines line repl hnm]

/-- C9 witness: a concrete three-line file (with an unterminated final line)
that does not contain the line `## unreleased` passes through unchanged. -/
theorem change_line_zero_match_witness :
    change_line_file
        { lines := ["# Changelog\n".data, "\n".data, "no marker here".data], mode := 420 }
        "## unreleased".data ["## 1.0.0 / 2026-10-12".data] =
      { lines := ["# Changelog\n".data, "\n".data, "no marker here".data], mode := 420 } :=
  change_line_zero_match
    { lines := ["# Changelog\n".data, "\n".data, "no marker here".data], mode := 420 }
    "## unreleased".data ["## 1.0.0 / 2026-10-12".data] (by decide)

/-- C4: the edit is atomic from the caller's perspective: the rewritten
content is constructed in the temporary file only; after any number `k` of
loop iterations of the rewriting pass — i.e. at every intermediate point of
the writing, and still after the complete pass and the `copymode` — the
original file at `path` is unchanged, and only the final `move`, after the
full rewriting pass has succeeded, replaces it with the rewritten file. -/
theorem change_line_atomic (f : SrcFile) (m0 : Nat) (line : List Char)
    (repl : List Line) (k : Nat) :
    (writePhase line repl (f.lines.take k) (initEditorState f m0)).target = some f ∧
    (copymodeStep (writePhase line repl f.lines (initEditorState f m0))).target = some f ∧
    (change_line_exec f m0 line repl).target = some (change_line_file f line repl) := by
  refine ⟨?_, ?_, ?_⟩
  · rw [writePhase_target]; rfl
  · simp [copymodeStep, writePhase_target, initEditorState]
  · unfold change_line_exec moveStep unlinkStep copymodeStep
    simp [writePhase_target, writePhase_tmp, initEditorState, change_line_file]

/-! ## Version Validator theorems -/

/-- C3 counterexample: `"1.0.0\n"` does not fully match the semver grammar
(it carries a trailing newline), yet `get_version` accepts it and returns it
unchanged, newline included — so "any string not fully matching the semver
grammar is rejected" is false as stated. -/
theorem get_version_newline_counterexample :
    semverFull "1.0.0\n".data = none ∧
      get_version ["release.py".data, "1.0.0\n".data] = some "1.0.0\n".data := by
  exact ⟨by decide, by decide⟩

/-- C3 (amended): `get_version` accepts a string (returning it unchanged)
exactly when it fully matches the semver grammar without build metadata, or
it fails to match outright but consists of a full build-metadata-free match
followed by a single string-final newline (Python's `$` anchor also matches
just before such a newline); every other string — malformed structure,
leading zeros in a numeric component, or a build-metadata component — is
fatally rejected. -/
theorem get_version_characterization (prog s : List Char) :
    get_version [prog, s] =
      (if semverFull s = some false then some s
       else if semverFull s = none ∧ s.getLast? = some nl ∧
                semverFull s.dropLast = some false then some s
       else none) := by
  unfold get_version rematch
  rcases h : semverFull s with _ | b
  · rcases hl : s.getLast? with _ | c
    · simp [h, hl]
    · by_cases hc : c = nl
      · subst hc
        rcases hd : semverFull s.dropLast with _ | b2
        · simp [h, hl, hd]
        · cases b2 <;> simp [h, hl, hd]
      · simp [h, hl, hc, Option.some_inj]
  · cases b <;> simp [h]

/-- C10: any otherwise-valid build-metadata-free semantic version followed by
a single trailing newline character is accepted by `get_version` and returned
with the trailing newline intact, because Python's `$` anchor also matches
just before a string-final newline. -/
theorem get_version_accepts_trailing_newline (prog s : List Char)
    (h1 : semverFull (s ++ [nl]) = none) (h2 : semverFull s = some false) :
    get_version [prog, s ++ [nl]] = some (s ++ [nl]) := by
  unfold get_version rematch
  simp only [List.length_cons, List.length_nil, List.get?]
  rw [h1, List.getLast?_concat, List.dropLast_concat, h2]
  simp

/-- C10 witness: `"1.0.0\n"` is accepted and returned with its newline. -/
theorem get_version_accepts_trailing_newline_witness :
    get_version ["release.py".data, "1.0.0".data ++ [nl]] =
      some ("1.0.0".data ++ [nl]) :=
  get_version_accepts_trailing_newline "release.py".data "1.0.0".data
    (by decide) (by decide)

/-! ## Changelog round trip -/

/-- C5 counterexample: the claim fails for a changelog that already contains
the dated release-heading line.  For the two-line file
`["## unreleased\n", "## 1.2.3 / 2026-01-01\n"]` and version `1.2.3`, date
`2026-01-01`, the second edit also expands the pre-existing heading line, so
the result is not "the original file with the `## unreleased` line replaced
by the five-line block and all other lines unchanged". -/
theorem changelog_round_trip_counterexample :
    ¬ ∃ pre suf : List Line,
      ["## unreleased\n".data, "## 1.2.3 / 2026-01-01\n".data] =
          pre ++ ("## unreleased".data ++ [nl]) :: suf ∧
        changelog_edits ["## unreleased\n".data, "## 1.2.3 / 2026-01-01\n".data]
            "1.2.3".data "2026-01-01".data =
          pre ++ ([unreleased_heading, [], "Nothing.".data, [],
            release_heading "1.2.3".data "2026-01-01".data].map (fun r => r ++ [nl]))
            ++ suf := by
  rintro ⟨pre, suf, h1, h2⟩
  have hu : "## unreleased\n".data = "## unreleased".data ++ [nl] := by decide
  rw [← hu] at h1
  rcases pre with _ | ⟨p, pre⟩
  · rw [List.nil_append] at h1
    injection h1 with h1a h1b
    rw [← h1b, List.nil_append] at h2
    exact absurd h2 (by decide)
  · rw [List.cons_append] at h1
    injection h1 with h1a h1b
    rcases pre with _ | ⟨q, pre⟩
    · rw [List.nil_append] at h1b
      injection h1b with h1c h1d
      exact absurd h1c (by decide)
    · rw [List.cons_append] at h1b
      injection h1b with h1c h1d
      exact absurd h1d.symm (List.append_ne_nil_of_right_ne_nil _ (by simp))

/-- C5 (amended): for every changelog file containing exactly one occurrence
of the (terminated) line `## unreleased` and no occurrence of the dated
release-heading line, applying the release edit (`## unreleased` →
`## <version> / <date>`) followed by the development edit (that heading →
the five lines `## unreleased`, blank, `Nothing.`, blank, heading) yields
the file in which `## unreleased` again precedes `## <version> / <date>`
with exactly one blank / `Nothing.` / blank block between them and all
other lines unchanged. -/
theorem changelog_round_trip (pre suf : List Line) (v d : List Char)
    (hother : ∀ l ∈ pre ++ suf,
      l ≠ unreleased_heading ++ [nl] ∧ l ≠ release_heading v d ++ [nl]) :
    changelog_edits (pre ++ (unreleased_heading ++ [nl]) :: suf) v d =
      pre ++ ([unreleased_heading, [], "Nothing.".data, [],
        release_heading v d].map (fun r => r ++ [nl])) ++ suf := by
  have hpre1 : ∀ l ∈ pre, l ≠ unreleased_heading ++ [nl] :=
    fun l hl => (hother l (List.mem_append_left _ hl)).1
  have hsuf1 : ∀ l ∈ suf, l ≠ unreleased_heading ++ [nl] :=
    fun l hl => (hother l (List.mem_append_right _ hl)).1
  have hpre2 : ∀ l ∈ pre, l ≠ release_heading v d ++ [nl] :=
    fun l hl => (hother l (List.mem_append_left _ hl)).2
  have hsuf2 : ∀ l ∈ suf, l ≠ release_heading v d ++ [nl] :=
    fun l hl => (hother l (List.mem_append_right _ hl)).2
  have hmid1 : change_line [unreleased_heading ++ [nl]] unreleased_heading
      [release_heading v d] = [release_heading v d ++ [nl]] := by
    simp [change_line, line_output]
  have hmid2 : change_line [release_heading v d ++ [nl]] (release_heading v d)
      [unreleased_heading, [], "Nothing.".data, [], release_heading v d] =
      [unreleased_heading, [], "Nothing.".data, [],
        release_heading v d].map (fun r => r ++ [nl]) := by
    simp [change_line, line_output]
  have step1 : change_line (pre ++ [unreleased_heading ++ [nl]] ++ suf)
      unreleased_heading [release_heading v d] =
      pre ++ [release_heading v d ++ [nl]] ++ suf := by
    rw [change_line_append, change_line_append,
      change_line_of_no_match pre _ _ hpre1, change_line_of_no_match suf _ _ hsuf1,
      hmid1]
  have step2 : change_line (pre ++ [release_heading v d ++ [nl]] ++ suf)
      (release_heading v d)
      [unreleased_heading, [], "Nothing.".data, [], release_heading v d] =
      pre ++ ([unreleased_heading, [], "Nothing.".data, [],
        release_heading v d].map (fun r => r ++ [nl])) ++ suf := by
    rw [change_line_append, change_line_append,
      change_line_of_no_match pre _ _ hpre2, change_line_of_no_match suf _ _ hsuf2,
      hmid2]
  unfold changelog_edits
  rw [show pre ++ (unreleased_heading ++ [nl]) :: suf
      = pre ++ [unreleased_heading ++ [nl]] ++ suf from by simp]
  rw [step1, step2]

/-- C5 witness: the round trip, on a concrete four-line changelog for
version `1.2.3` and date `2026-10-12`. -/
theorem changelog_round_trip_witness :
    changelog_edits
        (["# Changelog\n".data] ++ ("## unreleased".data ++ [nl]) ::
          ["\n".data, "## 1.0.0 / 2020-01-01\n".data])
        "1.2.3".data "2026-10-12".data =
      ["# Changelog\n".data] ++
        ([unreleased_heading, [], "Nothing.".data, [],
          release_heading "1.2.3".data "2026-10-12".data].map (fun r => r ++ [nl]))
        ++ ["\n".data, "## 1.0.0 / 2020-01-01\n".data] :=
  changelog_round_trip ["# Changelog\n".data]
    ["\n".data, "## 1.0.0 / 2020-01-01\n".data]
    "1.2.3".data "2026-10-12".data (by decide)

/-! ## Repository Inspector, Preparer and Publisher theorems -/

/-- C1: the fourth check evaluated at the failing input of a local branch
that is strictly ahead of upstream (local history `[1, 2]`, upstream history
`[1]`): the two-dot revision list `branch..upstream/branch` the code runs is
empty, so the check passes, although the symmetric difference between the
branches is the non-empty `[2]` — contradicting the claim (and the script's
own `--left-right` flag and "Local branch deviates from upstream" message,
which only make sense for the symmetric-difference list
`branch...upstream/branch`). -/
theorem deviation_check_passes_when_ahead :
    deviation_check [1, 2] [1] = true ∧
      revList_twoDot [1, 2] [1] = [] ∧
      symmetricDifference [1, 2] [1] = [2] := by
  exact ⟨by decide, by decide, by decide⟩

/-- C8: `push_release` performs exactly these individual push operations, in
this order: for the spec repository the branch head and the release tag to
`origin` and then to `upstream` (four ref pushes in total), and for the
website repository the branch head only to `origin` and then `upstream`; the
release tag is pushed only for the spec repository. -/
theorem push_release_pushes (v : List Char) (hv : v ≠ "HEAD".data) :
    pushedRefs (push_release_trace v) =
      [(Repo.spec, "origin".data, "HEAD".data), (Repo.spec, "origin".data, v),
       (Repo.spec, "upstream".data, "HEAD".data), (Repo.spec, "upstream".data, v),
       (Repo.website, "origin".data, "HEAD".data),
       (Repo.website, "upstream".data, "HEAD".data)] ∧
    ((pushedRefs (push_release_trace v)).filter
      (fun p => decide (p.1 = Repo.spec))).length = 4 ∧
    ∀ p ∈ pushedRefs (push_release_trace v), p.2.2 = v → p.1 = Repo.spec := by
  refine ⟨rfl, rfl, ?_⟩
  intro p hp hpv
  simp only [pushedRefs, push_release_trace, List.flatMap_cons, List.flatMap_nil,
    List.map_cons, List.map_nil, List.append_nil, List.cons_append, List.nil_append,
    List.mem_cons, List.not_mem_nil, or_false] at hp
  rcases hp with rfl | rfl | rfl | rfl | rfl | rfl
  · rfl
  · rfl
  · rfl
  · rfl
  · exact absurd hpv.symm hv
  · exact absurd hpv.symm hv

/-- C8 witness: the push list for version `1.2.3`. -/
theorem push_release_pushes_witness :
    pushedRefs (push_release_trace "1.2.3".data) =
      [(Repo.spec, "origin".data, "HEAD".data),
       (Repo.spec, "origin".data, "1.2.3".data),
       (Repo.spec, "upstream".data, "HEAD".data),
       (Repo.spec, "upstream".data, "1.2.3".data),
       (Repo.website, "origin".data, "HEAD".data),
       (Repo.website, "upstream".data, "HEAD".data)] ∧
    ((pushedRefs (push_release_trace "1.2.3".data)).filter
      (fun p => decide (p.1 = Repo.spec))).length = 4 ∧
    ∀ p ∈ pushedRefs (push_release_trace "1.2.3".data),
      p.2.2 = "1.2.3".data → p.1 = Repo.spec :=
  push_release_pushes "1.2.3".data (by decide)

/-- C6: in the trace of `prepare_release`, the release tag named exactly
`version` (with message `Release v<version>`) is created at a position
strictly between the first changelog commit (`Release v<version>`) and the
second changelog commit (`Bump for development`), and it is the only event
creating that tag (provided the timestamp-derived backup tag name differs
from the version). -/
theorem release_tag_between_commits (v b : List Char) (hb : b ≠ v) :
    ∃ i j k : Nat, i < j ∧ j < k ∧
      (prepare_release_trace v b).get? i =
        some (Event.commit Repo.spec ("Release v".data ++ v)) ∧
      (prepare_release_trace v b).get? j =
        some (Event.tagCreate Repo.spec v ("Release v".data ++ v)) ∧
      (prepare_release_trace v b).get? k =
        some (Event.commit Repo.spec "Bump for development".data) ∧
      ∀ m : Nat, (prepare_release_trace v b).get? m =
        some (Event.tagCreate Repo.spec v ("Release v".data ++ v)) → m = j := by
  refine ⟨3, 4, 6, by omega, by omega, rfl, rfl, rfl, ?_⟩
  intro m hm
  have hm11 : m < 11 := by
    by_contra hge
    push_neg at hge
    rw [List.get?_eq_none.mpr (by exact hge)] at hm
    exact Option.noConfusion hm
  interval_cases m <;> simp_all [prepare_release_trace, List.get?]

/-- C6 witness: the tag position for version `1.0.0` and backup tag
`backup/1700000000`. -/
theorem release_tag_between_commits_witness :
    ∃ i j k : Nat, i < j ∧ j < k ∧
      (prepare_release_trace "1.0.0".data "backup/1700000000".data).get? i =
        some (Event.commit Repo.spec ("Release v".data ++ "1.0.0".data)) ∧
      (prepare_release_trace "1.0.0".data "backup/1700000000".data).get? j =
        some (Event.tagCreate Repo.spec "1.0.0".data
          ("Release v".data ++ "1.0.0".data)) ∧
      (prepare_release_trace "1.0.0".data "backup/1700000000".data).get? k =
        some (Event.commit Repo.spec "Bump for development".data) ∧
      ∀ m : Nat,
        (prepare_release_trace "1.0.0".data "backup/1700000000".data).get? m =
          some (Event.tagCreate Repo.spec "1.0.0".data
            ("Release v".data ++ "1.0.0".data)) → m = j :=
  release_tag_between_commits "1.0.0".data "backup/1700000000".data (by decide)

theorem check_repo_state_no_mutation (r : Repo) (env : RepoEnv) (name : List Char) :
    (check_repo_state r env name).2.filter Event.isMutation = [] := by
  unfold check_repo_state
  repeat' split
  all_goals rfl

theorem get_repositories_no_mutation (specEnv webEnv : RepoEnv) :
    (get_repositories specEnv webEnv).2.filter Event.isMutation = [] := by
  unfold get_repositories
  dsimp only
  split
  · rw [List.filter_append, check_repo_state_no_mutation,
      check_repo_state_no_mutation]
    rfl
  · exact check_repo_state_no_mutation _ _ _

theorem get_repositories_fails (specEnv webEnv : RepoEnv)
    (h : (check_repo_state Repo.spec specEnv "toml".data).1 = false ∨
      (check_repo_state Repo.website webEnv "toml.io".data).1 = false) :
    (get_repositories specEnv webEnv).1 = false := by
  rcases h with h | h
  · simp [get_repositories, h]
  · by_cases h1 : (check_repo_state Repo.spec specEnv "toml".data).1 <;>
      simp [get_repositories, h1, h]

/-- C7: if any precondition check fails for either repository, the run
aborts with a non-zero exit (the success flag is `false`) and its trace
contains no mutating event at all — no file edit, no copy, no commit, no
tag, no push has been performed in either repository (at most non-mutating
`upstream`-remote fetches have run). -/
theorem precondition_failure_aborts_before_mutation (argv : List (List Char))
    (specEnv webEnv : RepoEnv) (backup : List Char)
    (h : (check_repo_state Repo.spec specEnv "toml".data).1 = false ∨
      (check_repo_state Repo.website webEnv "toml.io".data).1 = false) :
    (main_trace argv specEnv webEnv backup).1 = false ∧
    (main_trace argv specEnv webEnv backup).2.filter Event.isMutation = [] := by
  unfold main_trace
  rcases hgv : get_version argv with _ | v
  · exact ⟨rfl, rfl⟩
  · have hfail := get_repositories_fails specEnv webEnv h
    dsimp only
    split
    · rename_i h1
      rw [hfail] at h1
      exact absurd h1 (by simp)
    · exact ⟨rfl, get_repositories_no_mutation specEnv webEnv⟩

/-- C7 witness: with a well-configured, clean spec repository and a website
repository whose working tree is dirty, the run fails and performs no
mutating event. -/
theorem precondition_failure_witness :
    (main_trace ["release.py".data, "1.0.0".data]
        { upstreamUrl := "git@github.com:toml-lang/toml.git".data,
          currentBranch := "main".data, statusPorcelain := [], deviation := [] }
        { upstreamUrl := "git@github.com:toml-lang/toml.io.git".data,
          currentBranch := "main".data,
          statusPorcelain := " M CHANGELOG.md".data, deviation := [] }
        "backup/1700000000".data).1 = false ∧
    (main_trace ["release.py".data, "1.0.0".data]
        { upstreamUrl := "git@github.com:toml-lang/toml.git".data,
          currentBranch := "main".data, statusPorcelain := [], deviation := [] }
        { upstreamUrl := "git@github.com:toml-lang/toml.io.git".data,
          currentBranch := "main".data,
          statusPorcelain := " M CHANGELOG.md".data, deviation := [] }
        "backup/1700000000".data).2.filter Event.isMutation = [] :=
  precondition_failure_aborts_before_mutation _ _ _ _ (Or.inr (by decide))
